import Mathlib

/-!
Verification development for the `budget_system` repository: a shallow
embedding of the ad-budget / dayparting admission-control engine
(`ads/models.py`, `ads/services.py`, `ads/tasks.py`) together with proofs
about its behaviour.

Modelling conventions:
* `Decimal` monetary amounts are modelled as `Int` (think: amounts in cents);
  the code only adds, subtracts and compares them.
* `datetime.time` values are modelled as `Nat` (seconds since midnight).
* Database rows are Lean structures; the brand/campaign tables are lists,
  with the `Campaign.brand` foreign key an index into the brand list.
* The `DaypartingSchedule.timezone` character field is modelled by the UTC
  offset (in seconds) of the named zone, which is the only datum a
  timezone contributes to a time-of-day computation.
* Celery tasks become pure functions `DB → DB × summaries`; loops over
  query sets become structural recursion or maps over the lists.
-/

namespace BudgetSystem

/-- Brand row (`ads/models.py`, class `Brand`): budgets and running spend counters. -/
structure Brand where
  name : String
  daily_budget : Int
  monthly_budget : Int
  current_daily_spend : Int
  current_monthly_spend : Int
deriving DecidableEq

/-- Property `Brand.daily_budget_remaining`. -/
def Brand.daily_budget_remaining (b : Brand) : Int :=
  b.daily_budget - b.current_daily_spend

/-- Property `Brand.monthly_budget_remaining`. -/
def Brand.monthly_budget_remaining (b : Brand) : Int :=
  b.monthly_budget - b.current_monthly_spend

/-- Property `Brand.is_daily_budget_exceeded`: `current_daily_spend >= daily_budget`. -/
def Brand.is_daily_budget_exceeded (b : Brand) : Bool :=
  decide (b.daily_budget ≤ b.current_daily_spend)

/-- Property `Brand.is_monthly_budget_exceeded`: `current_monthly_spend >= monthly_budget`. -/
def Brand.is_monthly_budget_exceeded (b : Brand) : Bool :=
  decide (b.monthly_budget ≤ b.current_monthly_spend)

/-- Dayparting schedule row (`ads/models.py`, class `DaypartingSchedule`).
`start_time` and `end_time` are seconds since midnight; `timezone` is the
UTC offset in seconds of the zone named by the model's character field. -/
structure DaypartingSchedule where
  start_time : Nat
  end_time : Nat
  timezone : Int
deriving DecidableEq

/-- Method `DaypartingSchedule.is_active_now`: compares the current server
time-of-day `now` (from `timezone.now().time()`) against the stored window.
Note the method reads only `start_time` and `end_time`. -/
def DaypartingSchedule.is_active_now (s : DaypartingSchedule) (now : Nat) : Bool :=
  if s.start_time ≤ s.end_time then
    decide (s.start_time ≤ now) && decide (now ≤ s.end_time)
  else
    decide (s.start_time ≤ now) || decide (now ≤ s.end_time)

/-- Modelled from the spec (section 4.2), not from the source: the spec's
`isActiveNow` first normalizes `now` to the schedule's timezone. The source
`DaypartingSchedule.is_active_now` contains no such normalization, so the
spec's local time-of-day is reconstructed here from the spec's words: the
time-of-day of the instant `now` expressed in the schedule's zone. -/
def spec_local_time_of_day (s : DaypartingSchedule) (now : Nat) : Nat :=
  (((now : Int) + s.timezone) % 86400).toNat

/-- Modelled from the spec (section 4.2): the window test applied to the
timezone-normalized time-of-day, as the spec describes it. -/
def spec_is_active_now (s : DaypartingSchedule) (now : Nat) : Bool :=
  let t := spec_local_time_of_day s now
  if s.start_time ≤ s.end_time then
    decide (s.start_time ≤ t) && decide (t ≤ s.end_time)
  else
    decide (s.start_time ≤ t) || decide (t ≤ s.end_time)

/-- Campaign row (`ads/models.py`, class `Campaign`): foreign key `brand` is an
index into the brand table; the optional one-to-one `dayparting_schedule` is
carried inline as an `Option`. -/
structure Campaign where
  name : String
  brand : Nat
  is_active : Bool
  schedule : Option DaypartingSchedule
deriving DecidableEq

/-- Spend log row (`ads/models.py`, class `SpendLog`). -/
structure SpendLog where
  campaign : Nat
  amount : Int
  description : String
deriving DecidableEq

/-- Signal receiver `update_brand_spend` (`ads/models.py`): on creation of a
spend log, add its amount to both of the owning brand's counters. -/
def update_brand_spend (b : Brand) (amount : Int) : Brand :=
  { b with
    current_daily_spend := b.current_daily_spend + amount
    current_monthly_spend := b.current_monthly_spend + amount }

/-- `BudgetService.record_spend` (`ads/services.py`): creates the spend log
(appended to the log table) and, via the `post_save` signal, updates the
owning brand's totals. The function performs no validation of `amount`.
Returns the updated brand, the log table and the created log. -/
def record_spend (b : Brand) (logs : List SpendLog) (campaign : Nat)
    (amount : Int) (description : String) : Brand × List SpendLog × SpendLog :=
  let spend_log : SpendLog := { campaign := campaign, amount := amount, description := description }
  (update_brand_spend b amount, logs ++ [spend_log], spend_log)

/-- Sequential recording of a list of amounts on one campaign through
`BudgetService.record_spend` (each call appends a log and fires the signal). -/
def record_spends (b : Brand) (logs : List SpendLog) (campaign : Nat) :
    List Int → Brand × List SpendLog
  | [] => (b, logs)
  | a :: rest =>
    let r := record_spend b logs campaign a ("")
    record_spends r.1 r.2.1 campaign rest

/-- `DaypartingService.is_campaign_in_dayparting_window` (`ads/services.py`):
a campaign with no schedule can run anytime. -/
def is_campaign_in_dayparting_window (c : Campaign) (now : Nat) : Bool :=
  match c.schedule with
  | some s => s.is_active_now now
  | none => true

/-- `CampaignService.should_campaign_be_active` (`ads/services.py`): collect
blocking reasons in order (daily budget, monthly budget, dayparting), verdict
is emptiness of the list. The campaign's owning brand is passed resolved. -/
def should_campaign_be_active (brand : Brand) (c : Campaign) (now : Nat) :
    Bool × List String :=
  let blocking_reasons : List String := []
  let blocking_reasons :=
    if brand.is_daily_budget_exceeded then blocking_reasons ++ ["Daily budget exceeded"]
    else blocking_reasons
  let blocking_reasons :=
    if brand.is_monthly_budget_exceeded then blocking_reasons ++ ["Monthly budget exceeded"]
    else blocking_reasons
  let blocking_reasons :=
    if !(is_campaign_in_dayparting_window c now) then blocking_reasons ++ ["Outside dayparting window"]
    else blocking_reasons
  (blocking_reasons.length == 0, blocking_reasons)

/-- `CampaignService.update_campaign_status` (`ads/services.py`): returns the
(possibly updated) campaign, the `status_changed` flag and the explanation. -/
def update_campaign_status (brand : Brand) (c : Campaign) (force_update : Bool)
    (now : Nat) : Campaign × Bool × String :=
  let r := should_campaign_be_active brand c now
  let should_be_active := r.1
  let blocking_reasons := r.2
  if should_be_active == c.is_active && !force_update then
    (c, false, "No change needed")
  else
    let original_status := c.is_active
    let c' := { c with is_active := should_be_active }
    if should_be_active && !original_status then
      (c', true, "Campaign activated (constraints cleared)")
    else if !should_be_active && original_status then
      (c', true, "Campaign paused (" ++ String.intercalate (", ") blocking_reasons ++ ")")
    else
      (c', true, "Status forced to " ++ (if should_be_active then "active" else "inactive"))

/-- Database state: the brand and campaign tables. -/
structure DB where
  brands : List Brand
  campaigns : List Campaign
deriving DecidableEq

/-- Condition guarding the pause loop of `enforce_budgets` (`ads/tasks.py`). -/
def brand_budget_exceeded (b : Brand) : Bool :=
  b.is_daily_budget_exceeded || b.is_monthly_budget_exceeded

/-- Report string used by the tasks: `f"{campaign.name} ({brand.name})"`. -/
def pause_name (c : Campaign) (b : Brand) : String :=
  c.name ++ " (" ++ b.name ++ ")"

/-- Loop body of `enforce_budgets` (`ads/tasks.py`): for each brand (paired
with its index, i.e. primary key) whose budget is exceeded, pause that brand's
active campaigns and append their names to the report. -/
def pauseLoop : List (Nat × Brand) → List Campaign → List String → List Campaign × List String
  | [], cs, acc => (cs, acc)
  | (i, b) :: rest, cs, acc =>
    if brand_budget_exceeded b then
      pauseLoop rest
        (cs.map fun c => if c.brand == i && c.is_active then { c with is_active := false } else c)
        (acc ++ ((cs.filter fun c => c.brand == i && c.is_active).map fun c => pause_name c b))
    else
      pauseLoop rest cs acc

/-- Task `enforce_budgets` (`ads/tasks.py`): iterate all brands; pause the
active campaigns of every brand with an exceeded daily or monthly budget.
Returns the new database and the list of paused-campaign report strings. -/
def enforce_budgets (db : DB) : DB × List String :=
  let r := pauseLoop db.brands.enum db.campaigns []
  ({ db with campaigns := r.1 }, r.2)

/-- The per-campaign state transition performed by `enforce_dayparting`
(`ads/tasks.py`): only campaigns with a schedule are visited; activation
additionally requires the owning brand to be under both budgets, while
deactivation checks no budget. -/
def dayparting_step (brands : List Brand) (now : Nat) (c : Campaign) : Campaign :=
  match c.schedule with
  | none => c
  | some schedule =>
    let should_be_active := schedule.is_active_now now
    if should_be_active && !c.is_active then
      match brands[c.brand]? with
      | some brand =>
        if !brand.is_daily_budget_exceeded && !brand.is_monthly_budget_exceeded then
          { c with is_active := true }
        else c
      | none => c
    else if !should_be_active && c.is_active then
      { c with is_active := false }
    else c

/-- Whether `enforce_dayparting` activates campaign `c` (used for its report). -/
def dayparting_activates (brands : List Brand) (now : Nat) (c : Campaign) : Bool :=
  match c.schedule with
  | none => false
  | some s =>
    s.is_active_now now && !c.is_active &&
      (match brands[c.brand]? with
       | some brand => !brand.is_daily_budget_exceeded && !brand.is_monthly_budget_exceeded
       | none => false)

/-- Whether `enforce_dayparting` deactivates campaign `c` (used for its report). -/
def dayparting_deactivates (now : Nat) (c : Campaign) : Bool :=
  match c.schedule with
  | none => false
  | some s => !s.is_active_now now && c.is_active

/-- Brand name at an index, for report strings. -/
def brandNameAt (brands : List Brand) (i : Nat) : String :=
  ((brands[i]?).map Brand.name).getD ("")

/-- Task `enforce_dayparting` (`ads/tasks.py`): returns the new database and
the activated / deactivated report lists. -/
def enforce_dayparting (db : DB) (now : Nat) : DB × List String × List String :=
  let campaigns' := db.campaigns.map (dayparting_step db.brands now)
  let activated := (db.campaigns.filter (dayparting_activates db.brands now)).map
    fun c => c.name ++ " (" ++ brandNameAt db.brands c.brand ++ ")"
  let deactivated := (db.campaigns.filter (dayparting_deactivates now)).map
    fun c => c.name ++ " (" ++ brandNameAt db.brands c.brand ++ ")"
  ({ db with campaigns := campaigns' }, activated, deactivated)

/-- The per-brand reset of `reset_daily_monthly_spends` (`ads/tasks.py`):
daily counter zeroed unconditionally, monthly counter zeroed when the task
runs on the first day of the month (`today.day == 1`). -/
def reset_brand (day : Nat) (b : Brand) : Brand :=
  let b := { b with current_daily_spend := 0 }
  if day == 1 then { b with current_monthly_spend := 0 } else b

/-- Whether the reactivation scan of `reset_daily_monthly_spends` reactivates
campaign `c`: it visits inactive campaigns, skips those whose (already reset)
brand still exceeds a budget, and skips those whose schedule is out of window. -/
def reset_reactivates (brands : List Brand) (now : Nat) (c : Campaign) : Bool :=
  !c.is_active &&
    (match brands[c.brand]? with
     | some brand =>
       if brand.is_daily_budget_exceeded || brand.is_monthly_budget_exceeded then false
       else
         match c.schedule with
         | some s => s.is_active_now now
         | none => true
     | none => false)

/-- Task `reset_daily_monthly_spends` (`ads/tasks.py`): reset all brand
counters (monthly only on day 1), then reactivate eligible inactive
campaigns. `day` is the scheduler's current day-of-month, `now` the current
server time-of-day. Returns the new database and the reactivation report. -/
def reset_daily_monthly_spends (db : DB) (day : Nat) (now : Nat) : DB × List String :=
  let brands' := db.brands.map (reset_brand day)
  let campaigns' := db.campaigns.map
    fun c => if reset_reactivates brands' now c then { c with is_active := true } else c
  let reactivated := (db.campaigns.filter (reset_reactivates brands' now)).map
    fun c => c.name ++ " (" ++ brandNameAt brands' c.brand ++ ")"
  ({ brands := brands', campaigns := campaigns' }, reactivated)

/-- Task `check_and_update_campaign_status` (`ads/tasks.py`): run
`enforce_budgets` and then `enforce_dayparting`, in that order, and return
the combined results. -/
def check_and_update_campaign_status (db : DB) (now : Nat) :
    DB × List String × List String × List String :=
  let r1 := enforce_budgets db
  let r2 := enforce_dayparting r1.1 now
  (r2.1, r1.2, r2.2.1, r2.2.2)

/-! Theorems -/

/-- C1, counterexample: the claim says `record_spend` with a negative amount
fails with `InvalidAmount` and performs no counter mutation. The source
`BudgetService.record_spend` contains no validation at all: recording `-5` on
a brand with zero counters succeeds, appends a spend log, and drives both
counters to `-5`. -/
theorem C1_counterexample_negative_spend_recorded :
    (record_spend
        { name := "b", daily_budget := 10, monthly_budget := 100,
          current_daily_spend := 0, current_monthly_spend := 0 }
        [] 0 (-5) ("")).1.current_daily_spend = -5 ∧
    (record_spend
        { name := "b", daily_budget := 10, monthly_budget := 100,
          current_daily_spend := 0, current_monthly_spend := 0 }
        [] 0 (-5) ("")).1.current_monthly_spend = -5 ∧
    (record_spend
        { name := "b", daily_budget := 10, monthly_budget := 100,
          current_daily_spend := 0, current_monthly_spend := 0 }
        [] 0 (-5) ("")).2.1.length = 1 := by
  exact ⟨rfl, rfl, rfl⟩

/-- C1, amended: `record_spend` performs no amount validation. For every
amount, negative included, it appends exactly one spend log carrying that
amount and adds the amount to both of the owning brand's counters
(decrementing them when the amount is negative); no `InvalidAmount` failure
exists anywhere in the code. -/
theorem C1_record_spend_no_validation (b : Brand) (logs : List SpendLog)
    (campaign : Nat) (amount : Int) (d : String) :
    (record_spend b logs campaign amount d).1.current_daily_spend
        = b.current_daily_spend + amount ∧
    (record_spend b logs campaign amount d).1.current_monthly_spend
        = b.current_monthly_spend + amount ∧
    (record_spend b logs campaign amount d).1.name = b.name ∧
    (record_spend b logs campaign amount d).1.daily_budget = b.daily_budget ∧
    (record_spend b logs campaign amount d).1.monthly_budget = b.monthly_budget ∧
    (record_spend b logs campaign amount d).2.1
        = logs ++ [{ campaign := campaign, amount := amount, description := d }] := by
  exact ⟨rfl, rfl, rfl, rfl, rfl, rfl⟩

/-- Closed form of `record_spends`: both counters grow by the sum of the
amounts and one log per amount is appended, all other brand fields are kept. -/
theorem record_spends_eq (b : Brand) (logs : List SpendLog) (campaign : Nat)
    (amounts : List Int) :
    record_spends b logs campaign amounts =
      ({ b with
          current_daily_spend := b.current_daily_spend + amounts.sum
          current_monthly_spend := b.current_monthly_spend + amounts.sum },
       logs ++ amounts.map fun a =>
         { campaign := campaign, amount := a, description := "" }) := by
  induction amounts generalizing b logs with
  | nil => simp [record_spends]
  | cons a rest ih =>
    simp only [record_spends, record_spend, update_brand_spend, ih, List.sum_cons,
      List.map_cons]
    refine Prod.ext ?_ ?_
    · simp [add_assoc]
    · simp

/-- C2: recording a finite sequence of non-negative amounts through
`record_spend` increases the brand's daily and monthly counters by exactly
the sum of the amounts, appends exactly one log per amount (each counted
once), and the resulting brand state is invariant under permuting the
sequence. -/
theorem C2_record_spends_sum (b : Brand) (logs : List SpendLog) (campaign : Nat)
    (amounts : List Int) (h : ∀ a ∈ amounts, 0 ≤ a) :
    (record_spends b logs campaign amounts).1.current_daily_spend
        = b.current_daily_spend + amounts.sum ∧
    (record_spends b logs campaign amounts).1.current_monthly_spend
        = b.current_monthly_spend + amounts.sum ∧
    (record_spends b logs campaign amounts).2.length
        = logs.length + amounts.length ∧
    ∀ amounts2 : List Int, List.Perm amounts amounts2 →
      (record_spends b logs campaign amounts2).1
        = (record_spends b logs campaign amounts).1 := by
  refine ⟨by rw [record_spends_eq], by rw [record_spends_eq],
    by rw [record_spends_eq]; simp, ?_⟩
  intro amounts2 hp
  rw [record_spends_eq, record_spends_eq, hp.sum_eq]

/-- C2, witness: the amounts 3, 1, 2 are non-negative and accumulate to 6 on
a fresh brand, independently of order. -/
theorem C2_record_spends_sum_witness :
    (∀ a ∈ ([3, 1, 2] : List Int), 0 ≤ a) ∧
    ((record_spends
        { name := "b", daily_budget := 100, monthly_budget := 1000,
          current_daily_spend := 0, current_monthly_spend := 0 }
        [] 0 [3, 1, 2]).1.current_daily_spend = 0 + ([3, 1, 2] : List Int).sum ∧
     (record_spends
        { name := "b", daily_budget := 100, monthly_budget := 1000,
          current_daily_spend := 0, current_monthly_spend := 0 }
        [] 0 [3, 1, 2]).1.current_monthly_spend = 0 + ([3, 1, 2] : List Int).sum ∧
     (record_spends
        { name := "b", daily_budget := 100, monthly_budget := 1000,
          current_daily_spend := 0, current_monthly_spend := 0 }
        [] 0 [3, 1, 2]).2.length = List.length ([] : List SpendLog) + 3 ∧
     ∀ amounts2 : List Int, List.Perm [3, 1, 2] amounts2 →
       (record_spends
          { name := "b", daily_budget := 100, monthly_budget := 1000,
            current_daily_spend := 0, current_monthly_spend := 0 }
          [] 0 amounts2).1
         = (record_spends
              { name := "b", daily_budget := 100, monthly_budget := 1000,
                current_daily_spend := 0, current_monthly_spend := 0 }
              [] 0 [3, 1, 2]).1) :=
  ⟨by decide,
   C2_record_spends_sum
     { name := "b", daily_budget := 100, monthly_budget := 1000,
       current_daily_spend := 0, current_monthly_spend := 0 }
     [] 0 [3, 1, 2] (by decide)⟩

/-- C3, counterexample: the claim says `is_active_now` tests the time-of-day
normalized to the schedule's timezone. For the window 10:00-11:00 in a zone
one hour ahead of the server clock (offset 3600), at server time 10:30 the
zone-local time is 11:30, outside the window, yet `is_active_now` returns
`true`: the source compares the raw server time-of-day and never reads the
`timezone` field. -/
theorem C3_counterexample_timezone_not_normalized :
    DaypartingSchedule.is_active_now
        { start_time := 36000, end_time := 39600, timezone := 3600 } 37800 = true ∧
    spec_is_active_now
        { start_time := 36000, end_time := 39600, timezone := 3600 } 37800 = false := by
  exact ⟨rfl, rfl⟩

/-- C3, amended: `is_active_now` compares the raw server time-of-day `now`
against the window, ignoring the schedule's `timezone` field entirely: for
`start <= end` it is active iff `start <= now <= end` (inclusive), otherwise
iff `now >= start` or `now <= end`; `start == end` yields a single-instant
window; a campaign without a schedule is always time-eligible. -/
theorem C3_is_active_now_characterization (s : DaypartingSchedule) (c : Campaign) (now : Nat) :
    (s.is_active_now now = true ↔
      (if s.start_time ≤ s.end_time then s.start_time ≤ now ∧ now ≤ s.end_time
       else s.start_time ≤ now ∨ now ≤ s.end_time)) ∧
    (∀ tz : Int,
      DaypartingSchedule.is_active_now
        { start_time := s.start_time, end_time := s.end_time, timezone := tz } now
        = s.is_active_now now) ∧
    (s.start_time = s.end_time → (s.is_active_now now = true ↔ now = s.start_time)) ∧
    (c.schedule = none → is_campaign_in_dayparting_window c now = true) := by
  refine ⟨?_, fun tz => rfl, ?_, ?_⟩
  · simp only [DaypartingSchedule.is_active_now]
    split <;> simp
  · intro h
    simp only [DaypartingSchedule.is_active_now, h, le_refl, if_true,
      Bool.and_eq_true, decide_eq_true_eq]
    omega
  · intro h
    simp [is_campaign_in_dayparting_window, h]

/-- C3, witness for the amended characterization: the degenerate
single-instant window 09:30-09:30 is active exactly at 09:30, whatever the
stored timezone. -/
theorem C3_is_active_now_characterization_witness :
    DaypartingSchedule.is_active_now
      { start_time := 34200, end_time := 34200, timezone := 7200 } 34200 = true :=
  ((C3_is_active_now_characterization
      { start_time := 34200, end_time := 34200, timezone := 7200 }
      { name := "c", brand := 0, is_active := true, schedule := none }
      34200).2.2.1 rfl).mpr rfl

/-- C7: `should_campaign_be_active` returns its blocking reasons as a sublist
of the fixed sequence daily, monthly, dayparting (so reasons always appear in
that order); each reason is present exactly when its constraint is violated;
and the verdict is true iff the reason list is empty. The embedding is a pure
function of the brand, campaign and clock, reflecting that the source method
only reads state. -/
theorem C7_should_campaign_be_active_reasons (b : Brand) (c : Campaign) (now : Nat) :
    List.Sublist (should_campaign_be_active b c now).2
      ["Daily budget exceeded", "Monthly budget exceeded", "Outside dayparting window"] ∧
    ("Daily budget exceeded" ∈ (should_campaign_be_active b c now).2 ↔
      b.is_daily_budget_exceeded = true) ∧
    ("Monthly budget exceeded" ∈ (should_campaign_be_active b c now).2 ↔
      b.is_monthly_budget_exceeded = true) ∧
    ("Outside dayparting window" ∈ (should_campaign_be_active b c now).2 ↔
      is_campaign_in_dayparting_window c now = false) ∧
    ((should_campaign_be_active b c now).1 = true ↔
      (should_campaign_be_active b c now).2 = []) := by
  cases hd : b.is_daily_budget_exceeded <;>
    cases hm : b.is_monthly_budget_exceeded <;>
      cases hw : is_campaign_in_dayparting_window c now <;>
        simp [should_campaign_be_active, hd, hm, hw]

/-- C8: with `force_update = false`, `update_campaign_status` is a no-op
returning `changed = false` when the computed verdict equals the current
flag; otherwise it changes only the `is_active` flag, returns
`changed = true`, and explains either activation after the constraints
cleared or pausing with the blocking reasons (the forced-to-X message is
unreachable without `force_update`). -/
theorem C8_update_campaign_status_no_force (b : Brand) (c : Campaign) (now : Nat) :
    ((should_campaign_be_active b c now).1 = c.is_active →
      update_campaign_status b c false now = (c, false, "No change needed")) ∧
    ((should_campaign_be_active b c now).1 ≠ c.is_active →
      (update_campaign_status b c false now).1.name = c.name ∧
      (update_campaign_status b c false now).1.brand = c.brand ∧
      (update_campaign_status b c false now).1.schedule = c.schedule ∧
      (update_campaign_status b c false now).1.is_active
          = (should_campaign_be_active b c now).1 ∧
      (update_campaign_status b c false now).2.1 = true ∧
      (c.is_active = false → (update_campaign_status b c false now).2.2 =
        "Campaign activated (constraints cleared)") ∧
      (c.is_active = true → (update_campaign_status b c false now).2.2 =
        "Campaign paused (" ++
          String.intercalate (", ") (should_campaign_be_active b c now).2 ++ ")")) := by
  cases hv : (should_campaign_be_active b c now).1 <;>
    cases ha : c.is_active <;>
      simp [update_campaign_status, hv, ha]

/-- C8, witness: a campaign that is active, under both budgets and without a
schedule already matches its verdict, so the update is a no-op. -/
theorem C8_update_campaign_status_no_force_witness :
    update_campaign_status
        { name := "b", daily_budget := 10, monthly_budget := 10,
          current_daily_spend := 0, current_monthly_spend := 0 }
        { name := "c", brand := 0, is_active := true, schedule := none }
        false 5
      = ({ name := "c", brand := 0, is_active := true, schedule := none }, false,
          "No change needed") :=
  (C8_update_campaign_status_no_force
      { name := "b", daily_budget := 10, monthly_budget := 10,
        current_daily_spend := 0, current_monthly_spend := 0 }
      { name := "c", brand := 0, is_active := true, schedule := none } 5).1 (by decide)

/-- Mapping a function that fixes every element of a list is the identity. -/
theorem map_self_of_eq {α : Type} (l : List α) (f : α → α) (h : ∀ a ∈ l, f a = a) :
    l.map f = l := by
  induction l with
  | nil => rfl
  | cons a l ih =>
    simp only [List.map_cons]
    rw [h a (List.mem_cons_self _ _), ih (fun x hx => h x (List.mem_cons_of_mem _ hx))]

/-- Cumulative effect of `pauseLoop` on one campaign: it ends up paused iff it
is active and some processed `(index, brand)` entry matching its foreign key
has an exceeded budget. -/
def paused_by (bs : List (Nat × Brand)) (c : Campaign) : Campaign :=
  if c.is_active && bs.any (fun p => c.brand == p.1 && brand_budget_exceeded p.2) then
    { c with is_active := false }
  else c

/-- Whether the brand at index `i` of the table has an exceeded budget. -/
def exceeded_at (db : DB) (i : Nat) : Bool :=
  db.brands.enum.any fun p => i == p.1 && brand_budget_exceeded p.2

/-- On the empty brand list, `paused_by` changes nothing. -/
theorem paused_by_nil (c : Campaign) : paused_by [] c = c := by
  simp [paused_by]

/-- One exceeded-brand step of the pause loop composed with the remaining
steps equals `paused_by` over the whole list. -/
theorem paused_by_cons_exceeded (rest : List (Nat × Brand)) (i : Nat) (b : Brand)
    (hexc : brand_budget_exceeded b = true) (c : Campaign) :
    paused_by rest (if c.brand == i && c.is_active then { c with is_active := false } else c)
      = paused_by ((i, b) :: rest) c := by
  cases hca : c.is_active <;> cases hci : c.brand == i <;>
    cases hrest : rest.any fun p => c.brand == p.1 && brand_budget_exceeded p.2 <;>
      simp [paused_by, hca, hci, hexc, hrest, List.any_cons]

/-- A within-budget brand contributes nothing to `paused_by`. -/
theorem paused_by_cons_ok (rest : List (Nat × Brand)) (i : Nat) (b : Brand)
    (hexc : brand_budget_exceeded b = false) (c : Campaign) :
    paused_by rest c = paused_by ((i, b) :: rest) c := by
  simp only [paused_by, hexc, List.any_cons, Bool.and_false, Bool.false_or]

/-- The campaign table after `pauseLoop` is the pointwise `paused_by` image. -/
theorem pauseLoop_fst (bs : List (Nat × Brand)) :
    ∀ (cs : List Campaign) (acc : List String),
      (pauseLoop bs cs acc).1 = cs.map (paused_by bs) := by
  induction bs with
  | nil =>
    intro cs acc
    simp only [pauseLoop]
    exact (map_self_of_eq cs _ (fun c _ => paused_by_nil c)).symm
  | cons p rest ih =>
    obtain ⟨i, b⟩ := p
    intro cs acc
    by_cases hexc : brand_budget_exceeded b = true
    · simp only [pauseLoop]
      rw [if_pos hexc, ih, List.map_map]
      exact List.map_congr_left fun c _ => paused_by_cons_exceeded rest i b hexc c
    · have hexc' : brand_budget_exceeded b = false := by
        cases hcase : brand_budget_exceeded b
        · rfl
        · exact absurd hcase hexc
      simp only [pauseLoop]
      rw [if_neg hexc, ih]
      exact List.map_congr_left fun c _ => paused_by_cons_ok rest i b hexc' c

/-- `pauseLoop` only ever appends to its report accumulator. -/
theorem pauseLoop_acc_mem (bs : List (Nat × Brand)) :
    ∀ (cs : List Campaign) (acc : List String) (s : String),
      s ∈ acc → s ∈ (pauseLoop bs cs acc).2 := by
  induction bs with
  | nil =>
    intro cs acc s hs
    simpa [pauseLoop] using hs
  | cons p rest ih =>
    obtain ⟨i, b⟩ := p
    intro cs acc s hs
    by_cases hexc : brand_budget_exceeded b = true
    · simp only [pauseLoop]
      rw [if_pos hexc]
      exact ih _ _ _ (List.mem_append_left _ hs)
    · simp only [pauseLoop]
      rw [if_neg hexc]
      exact ih _ _ _ hs

/-- Every active campaign of an exceeded brand is reported by `pauseLoop`
(when the brand entries carry their indices, as `enum` produces them). -/
theorem pauseLoop_reports (bs : List Brand) :
    ∀ (n : Nat) (cs : List Campaign) (acc : List String) (j : Nat) (b : Brand),
      bs[j]? = some b → brand_budget_exceeded b = true →
      ∀ c ∈ cs, c.brand = n + j → c.is_active = true →
      pause_name c b ∈ (pauseLoop (List.enumFrom n bs) cs acc).2 := by
  induction bs with
  | nil =>
    intro n cs acc j b hj
    simp at hj
  | cons b0 rest ih =>
    intro n cs acc j b hj hexc c hc hbrand hact
    rw [List.enumFrom_cons]
    cases j with
    | zero =>
      rw [List.getElem?_cons_zero] at hj
      obtain rfl : b0 = b := by injection hj
      simp only [pauseLoop]
      rw [if_pos hexc]
      apply pauseLoop_acc_mem
      apply List.mem_append_right
      apply List.mem_map_of_mem
      refine List.mem_filter.mpr ⟨hc, ?_⟩
      simp [hbrand, hact]
    | succ j' =>
      rw [List.getElem?_cons_succ] at hj
      by_cases hexc0 : brand_budget_exceeded b0 = true
      · simp only [pauseLoop]
        rw [if_pos hexc0]
        have hne : (c.brand == n) = false := by
          simp only [beq_eq_false_iff_ne, ne_eq, hbrand]
          omega
        have hmem : c ∈ cs.map (fun x =>
            if x.brand == n && x.is_active then { x with is_active := false } else x) := by
          have himg := List.mem_map_of_mem
            (f := fun x => if x.brand == n && x.is_active then { x with is_active := false } else x)
            hc
          simpa [hne] using himg
        exact ih (n + 1) _ _ j' b hj hexc c hmem (by omega) hact
      · simp only [pauseLoop]
        rw [if_neg hexc0]
        exact ih (n + 1) _ _ j' b hj hexc c hc (by omega) hact

/-- If no active campaign belongs to a listed exceeded brand, `pauseLoop`
changes nothing and reports nothing. -/
theorem pauseLoop_noop (bs : List (Nat × Brand)) :
    ∀ (cs : List Campaign) (acc : List String),
      (∀ c ∈ cs, c.is_active = true →
        ∀ p ∈ bs, p.1 = c.brand → brand_budget_exceeded p.2 = false) →
      pauseLoop bs cs acc = (cs, acc) := by
  induction bs with
  | nil =>
    intro cs acc _
    simp [pauseLoop]
  | cons p rest ih =>
    obtain ⟨i, b⟩ := p
    intro cs acc h
    by_cases hexc : brand_budget_exceeded b = true
    · have hpt : ∀ c ∈ cs,
          (if c.brand == i && c.is_active then { c with is_active := false } else c) = c := by
        intro c hc
        by_cases hca : c.is_active = true
        · by_cases hcb : c.brand = i
          · have hfalse := h c hc hca (i, b) (List.mem_cons_self _ _) hcb.symm
            rw [hfalse] at hexc
            cases hexc
          · have hne : (c.brand == i) = false := beq_eq_false_iff_ne.mpr hcb
            simp [hne]
        · have hne : c.is_active = false := by
            cases hcase : c.is_active
            · rfl
            · exact absurd hcase hca
          simp [hne]
      have hfil : cs.filter (fun c => c.brand == i && c.is_active) = [] := by
        rw [List.filter_eq_nil_iff]
        intro c hc hcontra
        simp only [Bool.and_eq_true, beq_iff_eq] at hcontra
        obtain ⟨hcb, hca⟩ := hcontra
        have hfalse := h c hc hca (i, b) (List.mem_cons_self _ _) hcb.symm
        rw [hfalse] at hexc
        cases hexc
      simp only [pauseLoop]
      rw [if_pos hexc, map_self_of_eq cs _ hpt, hfil]
      simp only [List.map_nil, List.append_nil]
      exact ih cs acc (fun c hc hca q hq => h c hc hca q (List.mem_cons_of_mem _ hq))
    · simp only [pauseLoop]
      rw [if_neg hexc]
      exact ih cs acc (fun c hc hca q hq => h c hc hca q (List.mem_cons_of_mem _ hq))

/-- `enforce_budgets` never touches the brand table. -/
theorem enforce_budgets_brands (db : DB) : (enforce_budgets db).1.brands = db.brands := rfl

/-- `enforce_budgets` maps every campaign through `paused_by`. -/
theorem enforce_budgets_campaigns (db : DB) :
    (enforce_budgets db).1.campaigns = db.campaigns.map (paused_by db.brands.enum) :=
  pauseLoop_fst db.brands.enum db.campaigns []

/-- After `enforce_budgets`, no campaign of an exceeded brand is active, so a
second run is a no-op with an empty report. -/
theorem enforce_budgets_idempotent (db : DB) :
    enforce_budgets (enforce_budgets db).1 = ((enforce_budgets db).1, []) := by
  have hnoop :
      pauseLoop db.brands.enum (enforce_budgets db).1.campaigns []
        = ((enforce_budgets db).1.campaigns, []) := by
    apply pauseLoop_noop
    intro c hc hca p hp hpi
    rw [enforce_budgets_campaigns] at hc
    obtain ⟨c0, hc0, hceq⟩ := List.mem_map.mp hc
    by_cases hcond : (c0.is_active && db.brands.enum.any
        (fun q => c0.brand == q.1 && brand_budget_exceeded q.2)) = true
    · exfalso
      rw [← hceq] at hca
      unfold paused_by at hca
      rw [if_pos hcond] at hca
      simp at hca
    · have hcc0 : c = c0 := by
        rw [← hceq]
        unfold paused_by
        rw [if_neg hcond]
      subst hcc0
      simp only [hca, Bool.true_and, Bool.not_eq_true, List.any_eq_false] at hcond
      have hq := hcond p hp
      simp only [hpi, beq_self_eq_true, Bool.true_and, Bool.not_eq_true] at hq
      exact hq
  show ({ (enforce_budgets db).1 with
      campaigns := (pauseLoop db.brands.enum (enforce_budgets db).1.campaigns []).1 },
    (pauseLoop db.brands.enum (enforce_budgets db).1.campaigns []).2)
    = ((enforce_budgets db).1, [])
  rw [hnoop]

/-- Any campaign of a brand with an exceeded budget is inactive after
`enforce_budgets`, with all other fields untouched. -/
theorem enforce_budgets_pauses (db : DB) (k : Nat) (c : Campaign) (b : Brand)
    (hk : db.campaigns[k]? = some c) (hb : db.brands[c.brand]? = some b)
    (hexc : brand_budget_exceeded b = true) :
    ∃ c', (enforce_budgets db).1.campaigns[k]? = some c' ∧ c'.is_active = false ∧
      c'.name = c.name ∧ c'.brand = c.brand ∧ c'.schedule = c.schedule := by
  refine ⟨paused_by db.brands.enum c, ?_, ?_⟩
  · rw [enforce_budgets_campaigns, List.getElem?_map, hk]
    rfl
  · have hany : (db.brands.enum.any
        (fun p => c.brand == p.1 && brand_budget_exceeded p.2)) = true := by
      rw [List.any_eq_true]
      refine ⟨(c.brand, b), ?_, ?_⟩
      · exact List.mk_mem_enum_iff_getElem?.mpr hb
      · simp [hexc]
    unfold paused_by
    cases hca : c.is_active
    · simp only [Bool.false_and]
      simp [hca]
    · rw [hany]
      simp

/-- C4: `enforce_budgets` leaves the brand table unchanged; every campaign is
mapped through `paused_by` (active campaigns of exceeded brands become
inactive, nothing else changes); in particular any campaign of a brand with
an exceeded daily or monthly budget is inactive afterwards and, if it was
active, is reported in the pause list; and re-running immediately (no new
spend) changes nothing and reports an empty pause list. -/
theorem C4_enforce_budgets_pause_and_idempotent (db : DB) :
    (enforce_budgets db).1.brands = db.brands ∧
    (enforce_budgets db).1.campaigns = db.campaigns.map (paused_by db.brands.enum) ∧
    (∀ (k : Nat) (c : Campaign) (b : Brand),
      db.campaigns[k]? = some c → db.brands[c.brand]? = some b →
      brand_budget_exceeded b = true →
      ∃ c', (enforce_budgets db).1.campaigns[k]? = some c' ∧ c'.is_active = false ∧
        c'.name = c.name ∧ c'.brand = c.brand ∧ c'.schedule = c.schedule) ∧
    (∀ c ∈ db.campaigns, c.is_active = true → ∀ b, db.brands[c.brand]? = some b →
      brand_budget_exceeded b = true → pause_name c b ∈ (enforce_budgets db).2) ∧
    enforce_budgets (enforce_budgets db).1 = ((enforce_budgets db).1, []) := by
  refine ⟨rfl, enforce_budgets_campaigns db, ?_, ?_, enforce_budgets_idempotent db⟩
  · intro k c b hk hb hexc
    exact enforce_budgets_pauses db k c b hk hb hexc
  · intro c hc hca b hb hexc
    exact pauseLoop_reports db.brands 0 db.campaigns [] c.brand b hb hexc c hc (by omega) hca

/-- Daily counter after `reset_brand` is always zero. -/
theorem reset_brand_daily (day : Nat) (b : Brand) :
    (reset_brand day b).current_daily_spend = 0 := by
  unfold reset_brand
  split <;> rfl

/-- Monthly counter after `reset_brand`: zero on day 1, untouched otherwise. -/
theorem reset_brand_monthly (day : Nat) (b : Brand) :
    (reset_brand day b).current_monthly_spend
      = if day = 1 then 0 else b.current_monthly_spend := by
  by_cases h : day = 1 <;> simp [reset_brand, h]

/-- `reset_brand` keeps name and both budget limits. -/
theorem reset_brand_frame (day : Nat) (b : Brand) :
    (reset_brand day b).name = b.name ∧
    (reset_brand day b).daily_budget = b.daily_budget ∧
    (reset_brand day b).monthly_budget = b.monthly_budget := by
  unfold reset_brand
  split <;> exact ⟨rfl, rfl, rfl⟩

/-- The reactivation guard of the reset task, characterized through the
original brand: the budgets are evaluated against the already-reset
counters. -/
theorem reset_reactivates_iff (db : DB) (day now : Nat) (c : Campaign) (b : Brand)
    (hb : db.brands[c.brand]? = some b) :
    reset_reactivates (db.brands.map (reset_brand day)) now c = true ↔
      (c.is_active = false ∧ 0 < b.daily_budget ∧
       (if day = 1 then 0 < b.monthly_budget
        else b.current_monthly_spend < b.monthly_budget) ∧
       (∀ s : DaypartingSchedule, c.schedule = some s → s.is_active_now now = true)) := by
  have hmb := reset_brand_monthly day b
  have hfr := reset_brand_frame day b
  unfold reset_reactivates
  rw [List.getElem?_map, hb]
  simp only [Option.map_some']
  unfold Brand.is_daily_budget_exceeded Brand.is_monthly_budget_exceeded
  rw [reset_brand_daily, hmb, hfr.2.1, hfr.2.2]
  cases hca : c.is_active
  · simp only [Bool.not_false, Bool.true_and]
    by_cases hcond : (decide (b.daily_budget ≤ (0 : Int)) ||
        decide (b.monthly_budget ≤ if day = 1 then 0 else b.current_monthly_spend)) = true
    · rw [if_pos hcond]
      rw [Bool.or_eq_true, decide_eq_true_eq, decide_eq_true_eq] at hcond
      simp only [Bool.false_eq_true, false_iff, not_and]
      intro _ h1 h2 _
      by_cases hday : day = 1
      · rw [if_pos hday] at hcond h2
        omega
      · rw [if_neg hday] at hcond h2
        omega
    · rw [if_neg hcond]
      rw [Bool.or_eq_true, decide_eq_true_eq, decide_eq_true_eq] at hcond
      push_neg at hcond
      have h1 : 0 < b.daily_budget := by omega
      have h2 : (if day = 1 then 0 < b.monthly_budget
          else b.current_monthly_spend < b.monthly_budget) := by
        by_cases hday : day = 1
        · rw [if_pos hday]
          rw [if_pos hday] at hcond
          omega
        · rw [if_neg hday]
          rw [if_neg hday] at hcond
          omega
      cases hs : c.schedule with
      | none => simp [h1, h2]
      | some s =>
        simp only [Option.some.injEq]
        constructor
        · intro hw
          exact ⟨by trivial, h1, h2, fun s' hs' => hs' ▸ hw⟩
        · intro h
          exact h.2.2.2 s rfl
  · simp

/-- Record form of `reset_brand`. -/
theorem reset_brand_eq (day : Nat) (b : Brand) :
    reset_brand day b =
      { name := b.name, daily_budget := b.daily_budget,
        monthly_budget := b.monthly_budget, current_daily_spend := 0,
        current_monthly_spend := if day = 1 then 0 else b.current_monthly_spend } := by
  by_cases h : day = 1 <;> simp [reset_brand, h]

/-- C5: `reset_daily_monthly_spends` zeroes every brand's daily counter
unconditionally and the monthly counter exactly when the scheduler's current
day-of-month is 1 (names and budget limits kept), and afterwards reactivates
exactly the currently-inactive campaigns whose brand is under both freshly
reset budgets and whose schedule, when present, is currently in-window — an
inactive campaign whose schedule is out-of-window stays inactive. -/
theorem C5_reset_spends_and_reactivation (db : DB) (day now k : Nat) (c : Campaign) (b : Brand)
    (hk : db.campaigns[k]? = some c) (hb : db.brands[c.brand]? = some b) :
    (∀ (j : Nat) (bj : Brand), db.brands[j]? = some bj →
      (reset_daily_monthly_spends db day now).1.brands[j]?
        = some { name := bj.name, daily_budget := bj.daily_budget,
                 monthly_budget := bj.monthly_budget,
                 current_daily_spend := 0,
                 current_monthly_spend :=
                   if day = 1 then 0 else bj.current_monthly_spend }) ∧
    (∃ c', (reset_daily_monthly_spends db day now).1.campaigns[k]? = some c' ∧
      c'.name = c.name ∧ c'.brand = c.brand ∧ c'.schedule = c.schedule ∧
      (c'.is_active = true ↔ (c.is_active = true ∨
        (0 < b.daily_budget ∧
         (if day = 1 then 0 < b.monthly_budget
          else b.current_monthly_spend < b.monthly_budget) ∧
         (∀ s : DaypartingSchedule, c.schedule = some s →
           s.is_active_now now = true))))) := by
  constructor
  · intro j bj hbj
    show (db.brands.map (reset_brand day))[j]? = _
    rw [List.getElem?_map, hbj, Option.map_some', reset_brand_eq]
  · refine ⟨if reset_reactivates (db.brands.map (reset_brand day)) now c
        then { c with is_active := true } else c, ?_, ?_, ?_, ?_, ?_⟩
    · show (db.campaigns.map fun x =>
          if reset_reactivates (db.brands.map (reset_brand day)) now x
          then { x with is_active := true } else x)[k]? = _
      rw [List.getElem?_map, hk]
      rfl
    · split <;> rfl
    · split <;> rfl
    · split <;> rfl
    · by_cases hre : reset_reactivates (db.brands.map (reset_brand day)) now c = true
      · rw [if_pos hre]
        have hconds := (reset_reactivates_iff db day now c b hb).mp hre
        constructor
        · intro _
          exact Or.inr ⟨hconds.2.1, hconds.2.2.1, hconds.2.2.2⟩
        · intro _
          rfl
      · rw [if_neg hre]
        constructor
        · intro h
          exact Or.inl h
        · rintro (h | hcond)
          · exact h
          · cases hca : c.is_active with
            | true => rfl
            | false =>
              exact absurd ((reset_reactivates_iff db day now c b hb).mpr
                ⟨hca, hcond.1, hcond.2.1, hcond.2.2⟩) hre

/-- `dayparting_step` can only change the `is_active` flag. -/
theorem dayparting_step_frame (brands : List Brand) (now : Nat) (c : Campaign) :
    (dayparting_step brands now c).name = c.name ∧
    (dayparting_step brands now c).brand = c.brand ∧
    (dayparting_step brands now c).schedule = c.schedule := by
  cases hs : c.schedule with
  | none => simp [dayparting_step, hs]
  | some s =>
    cases hshould : s.is_active_now now <;> cases hca : c.is_active <;>
      cases hbq : brands[c.brand]? <;>
        simp [dayparting_step, hs, hshould, hca, hbq] <;>
          split <;> simp [hs]

/-- C6: over campaigns that have a schedule, `enforce_dayparting` changes at
most the `is_active` flag; an inactive campaign is activated iff it is
time-eligible and its brand is under both budget limits (activation never
overrides a budget block); an active campaign is deactivated iff it is
time-ineligible, with no budget check on the deactivation path. -/
theorem C6_enforce_dayparting_transitions (db : DB) (now k : Nat) (c : Campaign)
    (s : DaypartingSchedule) (b : Brand)
    (hk : db.campaigns[k]? = some c) (hs : c.schedule = some s)
    (hb : db.brands[c.brand]? = some b) :
    ∃ c', (enforce_dayparting db now).1.campaigns[k]? = some c' ∧
      c'.name = c.name ∧ c'.brand = c.brand ∧ c'.schedule = c.schedule ∧
      (c.is_active = false →
        (c'.is_active = true ↔
          (s.is_active_now now = true ∧
           b.is_daily_budget_exceeded = false ∧
           b.is_monthly_budget_exceeded = false))) ∧
      (c.is_active = true →
        (c'.is_active = false ↔ s.is_active_now now = false)) := by
  refine ⟨dayparting_step db.brands now c, ?_,
    (dayparting_step_frame db.brands now c).1,
    (dayparting_step_frame db.brands now c).2.1,
    (dayparting_step_frame db.brands now c).2.2, ?_, ?_⟩
  · show (db.campaigns.map (dayparting_step db.brands now))[k]? = _
    rw [List.getElem?_map, hk]
    rfl
  · intro hca
    simp only [dayparting_step, hs, hca, Bool.not_false, Bool.and_true, hb]
    cases hshould : s.is_active_now now
    · simp [hca]
    · cases hdex : b.is_daily_budget_exceeded <;>
        cases hmex : b.is_monthly_budget_exceeded <;>
          simp [hca, hdex, hmex]
  · intro hca
    simp only [dayparting_step, hs, hca, Bool.not_true, Bool.and_false, Bool.and_true, hb]
    cases hshould : s.is_active_now now
    · simp [hca]
    · cases hdex : b.is_daily_budget_exceeded <;>
        cases hmex : b.is_monthly_budget_exceeded <;>
          simp [hca, hdex, hmex]

/-- Verdict of `should_campaign_be_active` as a conjunction of the three
constraint checks. -/
theorem should_campaign_be_active_verdict (b : Brand) (c : Campaign) (now : Nat) :
    (should_campaign_be_active b c now).1 =
      (!b.is_daily_budget_exceeded && !b.is_monthly_budget_exceeded &&
        is_campaign_in_dayparting_window c now) := by
  cases hd : b.is_daily_budget_exceeded <;> cases hm : b.is_monthly_budget_exceeded <;>
    cases hw : is_campaign_in_dayparting_window c now <;>
      simp [should_campaign_be_active, hd, hm, hw]

/-- An exceeded brand never passes the both-budgets-under-limit test. -/
theorem not_both_ok_of_exceeded (b : Brand) (hexc : brand_budget_exceeded b = true) :
    (!b.is_daily_budget_exceeded && !b.is_monthly_budget_exceeded) = false := by
  unfold brand_budget_exceeded at hexc
  cases hd : b.is_daily_budget_exceeded <;> cases hm : b.is_monthly_budget_exceeded <;>
    rw [hd, hm] at hexc <;> simp_all

/-- `dayparting_step` never activates a campaign of an exceeded brand. -/
theorem dayparting_step_stays_inactive (brands : List Brand) (now : Nat) (c : Campaign)
    (b : Brand) (hb : brands[c.brand]? = some b)
    (hexc : brand_budget_exceeded b = true) (hca : c.is_active = false) :
    (dayparting_step brands now c).is_active = false := by
  have hne := not_both_ok_of_exceeded b hexc
  cases hs : c.schedule with
  | none => simp [dayparting_step, hs, hca]
  | some s =>
    cases hshould : s.is_active_now now <;>
      simp [dayparting_step, hs, hshould, hca, hb, hne]

/-- `dayparting_step` ignores campaigns without a schedule. -/
theorem dayparting_step_none (brands : List Brand) (now : Nat) (c : Campaign)
    (hs : c.schedule = none) : dayparting_step brands now c = c := by
  simp [dayparting_step, hs]

/-- `paused_by` never touches an inactive campaign. -/
theorem paused_by_inactive (bs : List (Nat × Brand)) (c : Campaign)
    (hca : c.is_active = false) : paused_by bs c = c := by
  unfold paused_by
  rw [hca]
  simp only [Bool.false_and]
  rw [if_neg]
  exact Bool.false_ne_true

/-- C9: a zero budget counts as exceeded even with a zero spend counter,
because exceedance compares with `>=`; consequently, with non-negative
counters, every campaign of a zero-daily-budget or zero-monthly-budget brand
fails `should_campaign_be_active`, is paused by `enforce_budgets` if active,
and is never (re)activated by `enforce_dayparting` or by
`reset_daily_monthly_spends`. -/
theorem C9_zero_budget_blocks (db : DB) (day now k : Nat) (c : Campaign) (b : Brand)
    (hk : db.campaigns[k]? = some c) (hb : db.brands[c.brand]? = some b)
    (hzero : (b.daily_budget = 0 ∧ 0 ≤ b.current_daily_spend) ∨
             (b.monthly_budget = 0 ∧ 0 ≤ b.current_monthly_spend)) :
    brand_budget_exceeded b = true ∧
    (should_campaign_be_active b c now).1 = false ∧
    (c.is_active = true →
      ∃ c', (enforce_budgets db).1.campaigns[k]? = some c' ∧ c'.is_active = false) ∧
    (c.is_active = false →
      ∃ c', (enforce_dayparting db now).1.campaigns[k]? = some c' ∧
        c'.is_active = false) ∧
    (c.is_active = false →
      ∃ c', (reset_daily_monthly_spends db day now).1.campaigns[k]? = some c' ∧
        c'.is_active = false) := by
  have hexc : brand_budget_exceeded b = true := by
    unfold brand_budget_exceeded Brand.is_daily_budget_exceeded
      Brand.is_monthly_budget_exceeded
    simp only [Bool.or_eq_true, decide_eq_true_eq]
    rcases hzero with ⟨h1, h2⟩ | ⟨h1, h2⟩
    · left
      omega
    · right
      omega
  refine ⟨hexc, ?_, ?_, ?_, ?_⟩
  · rw [should_campaign_be_active_verdict, not_both_ok_of_exceeded b hexc]
    rfl
  · intro hca
    obtain ⟨c', h1, h2, -⟩ := enforce_budgets_pauses db k c b hk hb hexc
    exact ⟨c', h1, h2⟩
  · intro hca
    refine ⟨dayparting_step db.brands now c, ?_, ?_⟩
    · show (db.campaigns.map (dayparting_step db.brands now))[k]? = _
      rw [List.getElem?_map, hk]
      rfl
    · exact dayparting_step_stays_inactive db.brands now c b hb hexc hca
  · intro hca
    have hre : reset_reactivates (db.brands.map (reset_brand day)) now c = false := by
      cases hcase : reset_reactivates (db.brands.map (reset_brand day)) now c
      · rfl
      · exfalso
        have h := (reset_reactivates_iff db day now c b hb).mp hcase
        rcases hzero with ⟨h1, h2⟩ | ⟨h1, h2⟩
        · have h3 := h.2.1
          omega
        · have h3 := h.2.2.1
          by_cases hday : day = 1
          · rw [if_pos hday] at h3
            omega
          · rw [if_neg hday] at h3
            omega
    refine ⟨c, ?_, hca⟩
    show (db.campaigns.map fun x =>
        if reset_reactivates (db.brands.map (reset_brand day)) now x
        then { x with is_active := true } else x)[k]? = _
    rw [List.getElem?_map, hk, Option.map_some']
    rw [if_neg]
    rw [hre]
    exact Bool.false_ne_true

/-- C10: `enforce_dayparting` never touches a campaign without a schedule
(the job iterates only over schedules); such a campaign, when inactive,
also stays inactive through the composite `check_and_update_campaign_status`
(whose budget phase can only pause); `reset_daily_monthly_spends` is the
periodic job that can reactivate it, doing so exactly when its brand is
under both freshly reset budgets. -/
theorem C10_schedule_less_campaign_frames (db : DB) (day now k : Nat) (c : Campaign)
    (b : Brand) (hk : db.campaigns[k]? = some c) (hs : c.schedule = none)
    (hb : db.brands[c.brand]? = some b) :
    ((enforce_dayparting db now).1.campaigns[k]? = some c) ∧
    (c.is_active = false →
      (check_and_update_campaign_status db now).1.campaigns[k]? = some c) ∧
    (c.is_active = false →
      brand_budget_exceeded (reset_brand day b) = false →
      ∃ c', (reset_daily_monthly_spends db day now).1.campaigns[k]? = some c' ∧
        c'.is_active = true ∧ c'.name = c.name ∧ c'.brand = c.brand ∧
        c'.schedule = none) := by
  refine ⟨?_, ?_, ?_⟩
  · show (db.campaigns.map (dayparting_step db.brands now))[k]? = _
    rw [List.getElem?_map, hk, Option.map_some', dayparting_step_none _ _ _ hs]
  · intro hca
    show ((enforce_budgets db).1.campaigns.map
        (dayparting_step (enforce_budgets db).1.brands now))[k]? = _
    rw [List.getElem?_map, enforce_budgets_campaigns, List.getElem?_map, hk]
    simp only [Option.map_some']
    rw [paused_by_inactive _ _ hca, dayparting_step_none _ _ _ hs]
  · intro hca hok
    have hre : reset_reactivates (db.brands.map (reset_brand day)) now c = true := by
      unfold reset_reactivates
      rw [List.getElem?_map, hb, Option.map_some', hca]
      unfold brand_budget_exceeded at hok
      simp [hok, hs]
    refine ⟨{ c with is_active := true }, ?_, rfl, rfl, rfl, hs⟩
    show (db.campaigns.map fun x =>
        if reset_reactivates (db.brands.map (reset_brand day)) now x
        then { x with is_active := true } else x)[k]? = _
    rw [List.getElem?_map, hk, Option.map_some']
    rw [if_pos hre]

/-- C4, witness: a brand with a zero daily budget gets its active campaign
paused by `enforce_budgets`. -/
theorem C4_enforce_budgets_pause_and_idempotent_witness :
    ∃ c', (enforce_budgets
        { brands := [{ name := "b", daily_budget := 0, monthly_budget := 100,
                       current_daily_spend := 0, current_monthly_spend := 0 }],
          campaigns := [{ name := "c", brand := 0, is_active := true,
                          schedule := none }] }).1.campaigns[0]? = some c' ∧
      c'.is_active = false ∧ c'.name = "c" ∧ c'.brand = 0 ∧ c'.schedule = none :=
  (C4_enforce_budgets_pause_and_idempotent
      { brands := [{ name := "b", daily_budget := 0, monthly_budget := 100,
                     current_daily_spend := 0, current_monthly_spend := 0 }],
        campaigns := [{ name := "c", brand := 0, is_active := true,
                        schedule := none }] }).2.2.1 0
    { name := "c", brand := 0, is_active := true, schedule := none }
    { name := "b", daily_budget := 0, monthly_budget := 100,
      current_daily_spend := 0, current_monthly_spend := 0 }
    rfl rfl (by decide)

/-- C5, witness: after a reset on a non-first day, an inactive schedule-less
campaign of a brand whose daily budget was exhausted (but whose monthly spend
is under its limit) is reactivated. -/
theorem C5_reset_spends_and_reactivation_witness :
    ∃ c', (reset_daily_monthly_spends
        { brands := [{ name := "b", daily_budget := 5, monthly_budget := 50,
                       current_daily_spend := 5, current_monthly_spend := 10 }],
          campaigns := [{ name := "c", brand := 0, is_active := false,
                          schedule := none }] } 2 0).1.campaigns[0]? = some c' ∧
      c'.is_active = true := by
  obtain ⟨c', h1, -, -, -, hiff⟩ :=
    (C5_reset_spends_and_reactivation
        { brands := [{ name := "b", daily_budget := 5, monthly_budget := 50,
                       current_daily_spend := 5, current_monthly_spend := 10 }],
          campaigns := [{ name := "c", brand := 0, is_active := false,
                          schedule := none }] } 2 0 0
        { name := "c", brand := 0, is_active := false, schedule := none }
        { name := "b", daily_budget := 5, monthly_budget := 50,
          current_daily_spend := 5, current_monthly_spend := 10 }
        rfl rfl).2
  refine ⟨c', h1, hiff.mpr (Or.inr ⟨by decide, by decide, ?_⟩)⟩
  intro s hs
  cases hs

/-- C6, witness: an inactive in-window campaign of an under-budget brand is
activated by `enforce_dayparting`. -/
theorem C6_enforce_dayparting_transitions_witness :
    ∃ c', (enforce_dayparting
        { brands := [{ name := "b", daily_budget := 10, monthly_budget := 100,
                       current_daily_spend := 0, current_monthly_spend := 0 }],
          campaigns := [{ name := "c", brand := 0, is_active := false,
                          schedule := some { start_time := 10, end_time := 20,
                                             timezone := 0 } }] }
        15).1.campaigns[0]? = some c' ∧ c'.is_active = true := by
  obtain ⟨c', h1, -, -, -, hact, -⟩ :=
    C6_enforce_dayparting_transitions
      { brands := [{ name := "b", daily_budget := 10, monthly_budget := 100,
                     current_daily_spend := 0, current_monthly_spend := 0 }],
        campaigns := [{ name := "c", brand := 0, is_active := false,
                        schedule := some { start_time := 10, end_time := 20,
                                           timezone := 0 } }] }
      15 0
      { name := "c", brand := 0, is_active := false,
        schedule := some { start_time := 10, end_time := 20, timezone := 0 } }
      { start_time := 10, end_time := 20, timezone := 0 }
      { name := "b", daily_budget := 10, monthly_budget := 100,
        current_daily_spend := 0, current_monthly_spend := 0 }
      rfl rfl rfl
  exact ⟨c', h1, (hact rfl).mpr ⟨by decide, by decide, by decide⟩⟩

/-- C9, witness: with a zero daily budget and zero counters, the brand counts
as exceeded and its active campaign is paused by `enforce_budgets`. -/
theorem C9_zero_budget_blocks_witness :
    brand_budget_exceeded
        { name := "b", daily_budget := 0, monthly_budget := 100,
          current_daily_spend := 0, current_monthly_spend := 0 } = true ∧
    ∃ c', (enforce_budgets
        { brands := [{ name := "b", daily_budget := 0, monthly_budget := 100,
                       current_daily_spend := 0, current_monthly_spend := 0 }],
          campaigns := [{ name := "c", brand := 0, is_active := true,
                          schedule := none }] }).1.campaigns[0]? = some c' ∧
      c'.is_active = false := by
  obtain ⟨h1, -, h3, -, -⟩ :=
    C9_zero_budget_blocks
      { brands := [{ name := "b", daily_budget := 0, monthly_budget := 100,
                     current_daily_spend := 0, current_monthly_spend := 0 }],
        campaigns := [{ name := "c", brand := 0, is_active := true,
                        schedule := none }] }
      2 0 0
      { name := "c", brand := 0, is_active := true, schedule := none }
      { name := "b", daily_budget := 0, monthly_budget := 100,
        current_daily_spend := 0, current_monthly_spend := 0 }
      rfl rfl (Or.inl ⟨rfl, le_refl 0⟩)
  exact ⟨h1, h3 rfl⟩

/-- C10, witness: a schedule-less inactive campaign is untouched by
`enforce_dayparting` and by the composite status check, and the reset task
reactivates it once its brand's counters are reset under the limits. -/
theorem C10_schedule_less_campaign_frames_witness :
    ((enforce_dayparting
        { brands := [{ name := "b", daily_budget := 10, monthly_budget := 100,
                       current_daily_spend := 10, current_monthly_spend := 10 }],
          campaigns := [{ name := "c", brand := 0, is_active := false,
                          schedule := none }] } 0).1.campaigns[0]?
      = some { name := "c", brand := 0, is_active := false, schedule := none }) ∧
    ∃ c', (reset_daily_monthly_spends
        { brands := [{ name := "b", daily_budget := 10, monthly_budget := 100,
                       current_daily_spend := 10, current_monthly_spend := 10 }],
          campaigns := [{ name := "c", brand := 0, is_active := false,
                          schedule := none }] } 2 0).1.campaigns[0]? = some c' ∧
      c'.is_active = true := by
  obtain ⟨h1, -, h3⟩ :=
    C10_schedule_less_campaign_frames
      { brands := [{ name := "b", daily_budget := 10, monthly_budget := 100,
                     current_daily_spend := 10, current_monthly_spend := 10 }],
        campaigns := [{ name := "c", brand := 0, is_active := false,
                        schedule := none }] }
      2 0 0
      { name := "c", brand := 0, is_active := false, schedule := none }
      { name := "b", daily_budget := 10, monthly_budget := 100,
        current_daily_spend := 10, current_monthly_spend := 10 }
      rfl rfl rfl
  obtain ⟨c', hc1, hc2, -, -, -⟩ := h3 rfl (by decide)
  exact ⟨h1, c', hc1, hc2⟩

end BudgetSystem
